import Mathlib

/-!
Verification of the weight-reconciliation engine (`engine.py`) of the
Criteria Weight Balancer.

The engine's single function `compute_weighting_state(scores, locked,
locked_pct, slider_weights)` is embedded shallowly over exact rationals.
Python's float NaN sentinel for the back-solved total `T` is modelled by
`Option ℚ` (`none` = NaN); every other float in the function stays finite
for finite inputs, so plain `ℚ` is used elsewhere.  List indexing `xs[i]`
for `i < n` is modelled with `List.getD` (all reads performed by the code
are in range when the four inputs have equal length).
-/

namespace Engine

/-- The four parallel input sequences of `compute_weighting_state`. -/
structure Input where
  scores : List ℚ
  locked : List Bool
  locked_pct : List ℚ
  slider_weights : List ℚ

/-- `max(0.0, min(10.0, x))` — the clamp to slider bounds used twice in the code. -/
def clamp0_10 (x : ℚ) : ℚ := max 0 (min 10 x)

/-- `n = len(scores)` (line 41). -/
def nrows (inp : Input) : ℕ := inp.scores.length

/-- `sum(locked_pct[i] for i in range(n) if locked[i])` (line 44). -/
def sum_locked_pct (inp : Input) : ℚ :=
  ∑ i in Finset.range (nrows inp),
    if inp.locked.getD i false = true then inp.locked_pct.getD i 0 else 0

/-- The `unlocked_weighted_sum` accumulation loop (lines 47–52):
scores of unlocked rows weighted by their clamped slider values. -/
def unlocked_weighted_sum (inp : Input) : ℚ :=
  ∑ i in Finset.range (nrows inp),
    if inp.locked.getD i false = true then 0
    else inp.scores.getD i 0 * clamp0_10 (inp.slider_weights.getD i 0)

/-- The back-solved total `T` (lines 55–60): `NaN` (modelled `none`) when
`denom = 1 - sum_locked_pct ≤ 0`, else `unlocked_weighted_sum / denom`. -/
def T (inp : Input) : Option ℚ :=
  if 1 - sum_locked_pct inp ≤ 0 then none
  else some (unlocked_weighted_sum inp / (1 - sum_locked_pct inp))

/-- The value `U / (1 - L)` of the back-solved total in the feasible case. -/
def T_solved (inp : Input) : ℚ :=
  unlocked_weighted_sum inp / (1 - sum_locked_pct inp)

/-- The ideal solved weight `(target * T) / s` of line 76 for row `i`
(meaningful when the system is feasible and `scores[i] ≠ 0`). -/
def solved_weight (inp : Input) (i : ℕ) : ℚ :=
  inp.locked_pct.getD i 0 * T_solved inp / inp.scores.getD i 0

/-- Effective weight of row `i` (lines 65–81): locked rows solve
`(target * T) / s` guarded by `s ≤ 0` and `isfinite(T)`, then clamp to
`[0, 10]`; unlocked rows clamp their slider value. -/
def eff_weight (inp : Input) (i : ℕ) : ℚ :=
  if inp.locked.getD i false = true then
    clamp0_10
      (if inp.scores.getD i 0 ≤ 0 then 0
       else (T inp).elim 0 fun t => inp.locked_pct.getD i 0 * t / inp.scores.getD i 0)
  else clamp0_10 (inp.slider_weights.getD i 0)

/-- `weighted_scores[i] = scores[i] * eff_w` (line 82). -/
def weighted_score (inp : Input) (i : ℕ) : ℚ :=
  inp.scores.getD i 0 * eff_weight inp i

/-- `total_weighted = sum(weighted_scores)` (line 84) — the value actually
returned as the grand total. -/
def total_weighted (inp : Input) : ℚ :=
  ∑ i in Finset.range (nrows inp), weighted_score inp i

/-- `pct_w_total[i]` (lines 85–88): share `weighted_scores[i] / total_weighted`,
or 0 for every row when `total_weighted ≤ 0`. -/
def pct_w_total (inp : Input) (i : ℕ) : ℚ :=
  if total_weighted inp ≤ 0 then 0
  else weighted_score inp i / total_weighted inp

/-- The returned list of effective weights. -/
def eff_weights (inp : Input) : List ℚ :=
  (List.range (nrows inp)).map (eff_weight inp)

/-- The returned list of weighted scores. -/
def weighted_scores (inp : Input) : List ℚ :=
  (List.range (nrows inp)).map (weighted_score inp)

/-- The returned list of per-row shares. -/
def pct_w_totals (inp : Input) : List ℚ :=
  (List.range (nrows inp)).map (pct_w_total inp)

/-- The full return value `(total_weighted, eff_weights, weighted_scores,
pct_w_total)` of line 90. -/
def compute_weighting_state (inp : Input) : ℚ × List ℚ × List ℚ × List ℚ :=
  (total_weighted inp, eff_weights inp, weighted_scores inp, pct_w_totals inp)

/-- The two-row balance scenario: scores `[100, 50]`, row 0 locked at 25%,
row 1 unlocked with slider 4. -/
def inp_balance : Input :=
  ⟨[100, 50], [true, false], [1/4, 0], [0, 4]⟩

/-- Two rows both locked with target shares `[0.6, 0.5]` (sum 1.1, infeasible). -/
def inp_infeasible : Input :=
  ⟨[1, 1], [true, true], [3/5, 1/2], [0, 0]⟩

/-- Zero-score lock scenario: row 0 has score 0 but is locked at 20%;
row 1 unlocked with score 50 and slider 2. -/
def inp_zero_lock : Input :=
  ⟨[0, 50], [true, false], [1/5, 0], [0, 2]⟩

/-- A locked row with negative score `-1` and negative target `-1/100`:
its ideal solved weight lies in `[0, 10]`, yet the `s ≤ 0` guard forces its
effective weight to 0. -/
def inp_neg_score : Input :=
  ⟨[100, -1, 50], [true, true, false], [1/4, -1/100, 0], [0, 0, 4]⟩

/-- One unlocked row whose slider value 15 exceeds the slider bound 10. -/
def inp_over_slider : Input :=
  ⟨[1], [false], [0], [15]⟩

/-- Same masked data as `inp_balance` but with different slider value at the
locked index 0 and different locked target at the unlocked index 1. -/
def inp_balance_masked : Input :=
  ⟨[100, 50], [true, false], [1/4, 9], [7, 4]⟩

lemma clamp0_10_nonneg (x : ℚ) : 0 ≤ clamp0_10 x := le_max_left 0 _

lemma clamp0_10_le_ten (x : ℚ) : clamp0_10 x ≤ 10 :=
  max_le (by norm_num) (min_le_left 10 x)

lemma clamp0_10_eq_of_bounds {x : ℚ} (h0 : 0 ≤ x) (h10 : x ≤ 10) :
    clamp0_10 x = x := by
  unfold clamp0_10
  rw [min_eq_right h10, max_eq_right h0]

lemma T_eq_some {inp : Input} (hL : sum_locked_pct inp < 1) :
    T inp = some (T_solved inp) := by
  unfold T T_solved
  rw [if_neg (by linarith)]

lemma eff_weight_unlocked {inp : Input} {i : ℕ}
    (h : inp.locked.getD i false = false) :
    eff_weight inp i = clamp0_10 (inp.slider_weights.getD i 0) := by
  unfold eff_weight
  rw [h]
  simp

lemma eff_weight_locked_feasible {inp : Input} {i : ℕ}
    (h : inp.locked.getD i false = true) (hs : 0 < inp.scores.getD i 0)
    (hL : sum_locked_pct inp < 1) :
    eff_weight inp i = clamp0_10 (solved_weight inp i) := by
  unfold eff_weight
  rw [h, if_pos rfl, if_neg (not_le.mpr hs), T_eq_some hL]
  rfl

lemma weighted_score_locked_eq {inp : Input} {i : ℕ}
    (h : inp.locked.getD i false = true) (hs : 0 < inp.scores.getD i 0)
    (hL : sum_locked_pct inp < 1)
    (h0 : 0 ≤ solved_weight inp i) (h10 : solved_weight inp i ≤ 10) :
    weighted_score inp i = inp.locked_pct.getD i 0 * T_solved inp := by
  unfold weighted_score
  rw [eff_weight_locked_feasible h hs hL, clamp0_10_eq_of_bounds h0 h10,
    solved_weight, mul_comm, div_mul_cancel₀ _ (ne_of_gt hs)]

lemma weighted_score_unlocked_eq {inp : Input} {i : ℕ}
    (h : inp.locked.getD i false = false) :
    weighted_score inp i =
      inp.scores.getD i 0 * clamp0_10 (inp.slider_weights.getD i 0) := by
  unfold weighted_score
  rw [eff_weight_unlocked h]

lemma list_range_map_sum (f : ℕ → ℚ) (n : ℕ) :
    ((List.range n).map f).sum = ∑ i in Finset.range n, f i := by
  induction n with
  | zero => simp
  | succ m ih => rw [List.range_succ, Finset.sum_range_succ, List.map_append,
      List.sum_append, ih, List.map_singleton, List.sum_singleton]

/-- When the solve is feasible and every locked row has positive score and an
ideal weight inside the slider bounds, the recomputed final total equals the
back-solved total. -/
lemma total_eq_T_solved {inp : Input} (hL : sum_locked_pct inp < 1)
    (hall : ∀ j, j < nrows inp → inp.locked.getD j false = true →
      0 < inp.scores.getD j 0 ∧ 0 ≤ solved_weight inp j ∧ solved_weight inp j ≤ 10) :
    total_weighted inp = T_solved inp := by
  have key : ∀ j ∈ Finset.range (nrows inp),
      weighted_score inp j =
        (if inp.locked.getD j false = true then inp.locked_pct.getD j 0 * T_solved inp else 0)
          + (if inp.locked.getD j false = true then 0
             else inp.scores.getD j 0 * clamp0_10 (inp.slider_weights.getD j 0)) := by
    intro j hj
    by_cases h : inp.locked.getD j false = true
    · obtain ⟨hs, h0, h10⟩ := hall j (Finset.mem_range.mp hj) h
      rw [if_pos h, if_pos h, add_zero, weighted_score_locked_eq h hs hL h0 h10]
    · rw [if_neg h, if_neg h, zero_add,
        weighted_score_unlocked_eq (Bool.not_eq_true _ ▸ eq_false_of_ne_true h)]
  have hsum : total_weighted inp
      = sum_locked_pct inp * T_solved inp + unlocked_weighted_sum inp := by
    unfold total_weighted
    rw [Finset.sum_congr rfl key, Finset.sum_add_distrib]
    congr 1
    rw [sum_locked_pct, Finset.sum_mul]
    exact Finset.sum_congr rfl fun j _ => by rw [ite_mul, zero_mul]
  have hd : (0 : ℚ) < 1 - sum_locked_pct inp := by linarith
  rw [hsum, T_solved]
  field_simp
  ring

lemma eff_weights_getD {inp : Input} {i : ℕ} (hi : i < nrows inp) :
    (eff_weights inp).getD i 0 = eff_weight inp i := by
  simp only [eff_weights, List.getD_eq_getElem?_getD, List.getElem?_map,
    List.getElem?_range hi, Option.map_some', Option.getD_some]

lemma pct_w_totals_getD {inp : Input} {i : ℕ} (hi : i < nrows inp) :
    (pct_w_totals inp).getD i 0 = pct_w_total inp i := by
  simp only [pct_w_totals, List.getD_eq_getElem?_getD, List.getElem?_map,
    List.getElem?_range hi, Option.map_some', Option.getD_some]

/-- C3: whenever the grand total returned by `compute_weighting_state` is
strictly positive, the returned shares sum to exactly 1 (exact rational
arithmetic). -/
theorem shares_sum_to_one (inp : Input)
    (h : 0 < (compute_weighting_state inp).1) :
    ((compute_weighting_state inp).2.2.2).sum = 1 := by
  have htot : 0 < total_weighted inp := h
  show (pct_w_totals inp).sum = 1
  rw [pct_w_totals, list_range_map_sum]
  have hdiv : ∀ i ∈ Finset.range (nrows inp),
      pct_w_total inp i = weighted_score inp i / total_weighted inp := by
    intro i _
    rw [pct_w_total, if_neg (not_le.mpr htot)]
  rw [Finset.sum_congr rfl hdiv, ← Finset.sum_div]
  show total_weighted inp / total_weighted inp = 1
  exact div_self (ne_of_gt htot)

/-- C3 witness: the zero-score-lock input has returned total 100 > 0 and its
shares sum to 1. -/
theorem shares_sum_to_one_witness :
    ((compute_weighting_state inp_zero_lock).2.2.2).sum = 1 :=
  shares_sum_to_one inp_zero_lock (by
    norm_num [compute_weighting_state, total_weighted, weighted_score,
      eff_weight, T, sum_locked_pct, unlocked_weighted_sum, nrows, clamp0_10,
      inp_zero_lock, Finset.sum_range_succ, min_def, max_def])

/-- C4: every entry of the effective-weight list returned by
`compute_weighting_state` lies in the closed interval `[0, 10]`, for every
input. -/
theorem eff_weight_in_slider_range (inp : Input) (x : ℚ)
    (hx : x ∈ (compute_weighting_state inp).2.1) : 0 ≤ x ∧ x ≤ 10 := by
  have hx2 : x ∈ eff_weights inp := hx
  rw [eff_weights] at hx2
  obtain ⟨i, _, rfl⟩ := List.mem_map.mp hx2
  constructor
  · rw [eff_weight]
    split
    · exact clamp0_10_nonneg _
    · exact clamp0_10_nonneg _
  · rw [eff_weight]
    split
    · exact clamp0_10_le_ten _
    · exact clamp0_10_le_ten _

/-- C4 witness: the out-of-range slider value 15 produces the clamped
effective weight 10, which lies in `[0, 10]`. -/
theorem eff_weight_in_slider_range_witness : 0 ≤ (10 : ℚ) ∧ (10 : ℚ) ≤ 10 :=
  eff_weight_in_slider_range inp_over_slider 10 (by
    norm_num [compute_weighting_state, eff_weights, eff_weight, nrows,
      clamp0_10, inp_over_slider, List.range_succ, min_def, max_def])

/-- C6: whenever the recomputed final total is ≤ 0, every returned share is 0
(no division by zero is attempted). -/
theorem degenerate_total_all_shares_zero (inp : Input)
    (h : (compute_weighting_state inp).1 ≤ 0) :
    (compute_weighting_state inp).2.2.2 = List.replicate (nrows inp) 0 := by
  have htot : total_weighted inp ≤ 0 := h
  show pct_w_totals inp = _
  rw [pct_w_totals, List.eq_replicate_iff]
  refine ⟨by simp, fun b hb => ?_⟩
  obtain ⟨i, _, rfl⟩ := List.mem_map.mp hb
  rw [pct_w_total, if_pos htot]

/-- C6 witness: the all-locked infeasible input has returned total 0 ≤ 0 and
all of its shares are 0. -/
theorem degenerate_total_all_shares_zero_witness :
    (compute_weighting_state inp_infeasible).2.2.2 =
      List.replicate (nrows inp_infeasible) 0 :=
  degenerate_total_all_shares_zero inp_infeasible (by
    norm_num [compute_weighting_state, total_weighted, weighted_score,
      eff_weight, T, sum_locked_pct, unlocked_weighted_sum, nrows, clamp0_10,
      inp_infeasible, Finset.sum_range_succ, min_def, max_def])

/-- C7: on scores `[100, 50]` with row 0 locked at share 1/4 and row 1
unlocked with slider 4, the function returns grand total 800/3, effective
weights `[2/3, 4]`, weighted scores `[200/3, 200]` and shares `[1/4, 3/4]`. -/
theorem two_row_balance_state :
    compute_weighting_state inp_balance =
      (800/3, [2/3, 4], [200/3, 200], [1/4, 3/4]) := by
  norm_num [compute_weighting_state, total_weighted, eff_weights,
    weighted_scores, pct_w_totals, pct_w_total, weighted_score, eff_weight, T,
    sum_locked_pct, unlocked_weighted_sum, nrows, clamp0_10, inp_balance,
    Finset.sum_range_succ, List.range_succ, min_def, max_def]

/-- C8: for every unlocked row, the returned effective weight is exactly the
clamp of the supplied slider value to `[0, 10]`. -/
theorem unlocked_weight_clamped (inp : Input) (i : ℕ) (hi : i < nrows inp)
    (h : inp.locked.getD i false = false) :
    (compute_weighting_state inp).2.1.getD i 0 =
      clamp0_10 (inp.slider_weights.getD i 0) := by
  show (eff_weights inp).getD i 0 = _
  rw [eff_weights_getD hi]
  exact eff_weight_unlocked h

/-- C8 witness: an unlocked row with slider value 15 gets effective weight
`clamp(15) = 10`. -/
theorem unlocked_weight_clamped_witness :
    (compute_weighting_state inp_over_slider).2.1.getD 0 0 = 10 :=
  (unlocked_weight_clamped inp_over_slider 0 (by decide) (by decide)).trans
    (by norm_num [inp_over_slider, clamp0_10, min_def, max_def])

/-- C9: for four equal-length input sequences of length `N ≥ 1` the function
totally (it is a Lean function) and deterministically returns the four output
sequences, the three output lists having length `N`. -/
theorem outputs_well_formed (inp : Input) (N : ℕ)
    (h1 : inp.scores.length = N) (h2 : inp.locked.length = N)
    (h3 : inp.locked_pct.length = N) (h4 : inp.slider_weights.length = N)
    (hN : 1 ≤ N) :
    (compute_weighting_state inp).2.1.length = N ∧
    (compute_weighting_state inp).2.2.1.length = N ∧
    (compute_weighting_state inp).2.2.2.length = N := by
  refine ⟨?_, ?_, ?_⟩ <;>
    simp [compute_weighting_state, eff_weights, weighted_scores, pct_w_totals,
      nrows, h1]

/-- C9 witness: the one-row input produces three output lists of length 1. -/
theorem outputs_well_formed_witness :
    (compute_weighting_state inp_over_slider).2.1.length = 1 ∧
    (compute_weighting_state inp_over_slider).2.2.1.length = 1 ∧
    (compute_weighting_state inp_over_slider).2.2.2.length = 1 :=
  outputs_well_formed inp_over_slider 1 (by decide) (by decide) (by decide)
    (by decide) (by decide)

/-- C1 counterexample: on `inp_neg_score` every hypothesis of the claim holds
literally — row 0 is locked with score 100 > 0 and target 1/4 < 1, the locked
shares sum to 6/25 < 1, the ideal solved weight of each locked row (rows 0 and
1; row 2 is unlocked) lies inside `[0, 10]` (25/38 and 50/19 respectively,
both well-defined since both scores are nonzero), and the recomputed total
5050/19 is positive — yet row 0's returned share is 25/101 ≠ 1/4, because row
1's negative score trips the `s ≤ 0` guard, zeroing its weight and shifting
the final total away from the back-solved one. -/
theorem locked_share_realization_cex :
    inp_neg_score.locked.getD 0 false = true ∧
    0 < inp_neg_score.scores.getD 0 0 ∧
    inp_neg_score.locked_pct.getD 0 0 < 1 ∧
    sum_locked_pct inp_neg_score < 1 ∧
    inp_neg_score.scores.getD 1 0 ≠ 0 ∧
    (0 ≤ solved_weight inp_neg_score 0 ∧ solved_weight inp_neg_score 0 ≤ 10) ∧
    (0 ≤ solved_weight inp_neg_score 1 ∧ solved_weight inp_neg_score 1 ≤ 10) ∧
    inp_neg_score.locked.getD 2 false = false ∧
    0 < total_weighted inp_neg_score ∧
    pct_w_total inp_neg_score 0 ≠ inp_neg_score.locked_pct.getD 0 0 := by
  norm_num [pct_w_total, total_weighted, weighted_score, eff_weight, T,
    T_solved, solved_weight, sum_locked_pct, unlocked_weighted_sum, nrows,
    clamp0_10, inp_neg_score, Finset.sum_range_succ, min_def, max_def]

/-- C1 (amended): if row `i` is locked with positive score and target below 1,
the locked shares sum to less than 1, every locked row has a *positive* score
and an ideal solved weight inside `[0, 10]` (no clamp saturation), and the
recomputed final total is positive, then row `i`'s returned share equals its
locked target exactly. -/
theorem locked_share_realized (inp : Input) (i : ℕ) (hi : i < nrows inp)
    (hlock : inp.locked.getD i false = true)
    (hpct : inp.locked_pct.getD i 0 < 1)
    (hL : sum_locked_pct inp < 1)
    (hall : ∀ j, j < nrows inp → inp.locked.getD j false = true →
      0 < inp.scores.getD j 0 ∧ 0 ≤ solved_weight inp j ∧
        solved_weight inp j ≤ 10)
    (hpos : 0 < (compute_weighting_state inp).1) :
    (compute_weighting_state inp).2.2.2.getD i 0 =
      inp.locked_pct.getD i 0 := by
  have htotpos : 0 < total_weighted inp := hpos
  obtain ⟨hs, h0, h10⟩ := hall i hi hlock
  have htot := total_eq_T_solved hL hall
  have hTpos : 0 < T_solved inp := htot ▸ htotpos
  show (pct_w_totals inp).getD i 0 = _
  rw [pct_w_totals_getD hi, pct_w_total, if_neg (not_le.mpr htotpos),
    weighted_score_locked_eq hlock hs hL h0 h10, htot,
    mul_div_cancel_right₀ _ (ne_of_gt hTpos)]

/-- C1 witness: in the two-row balance scenario the locked row's returned
share is exactly its locked target 1/4. -/
theorem locked_share_realized_witness :
    (compute_weighting_state inp_balance).2.2.2.getD 0 0 =
      inp_balance.locked_pct.getD 0 0 :=
  locked_share_realized inp_balance 0 (by decide) (by decide)
    (by norm_num [inp_balance])
    (by norm_num [sum_locked_pct, nrows, inp_balance, Finset.sum_range_succ])
    (by
      intro j hj hl
      norm_num [nrows, inp_balance] at hj
      interval_cases j
      · refine ⟨by norm_num [inp_balance], ?_, ?_⟩ <;>
          norm_num [solved_weight, T_solved, sum_locked_pct,
            unlocked_weighted_sum, nrows, clamp0_10, inp_balance,
            Finset.sum_range_succ, min_def, max_def]
      · simp [inp_balance] at hl)
    (by norm_num [compute_weighting_state, total_weighted, weighted_score,
      eff_weight, T, sum_locked_pct, unlocked_weighted_sum, nrows, clamp0_10,
      inp_balance, Finset.sum_range_succ, min_def, max_def])

/-- C2: with two rows both locked at shares `[3/5, 1/2]` (sum 11/10 ≥ 1), the
internal back-solved total `T` is the NaN sentinel (`none`) and both locked
rows' effective weights are 0 — but the value the function actually returns
as the grand total is the finite recomputed sum 0, not NaN: the returned
tuple is `(0, [0,0], [0,0], [0,0])`. -/
theorem infeasible_lock_sum_state :
    T inp_infeasible = none ∧
    compute_weighting_state inp_infeasible = (0, [0, 0], [0, 0], [0, 0]) := by
  norm_num [compute_weighting_state, total_weighted, eff_weights,
    weighted_scores, pct_w_totals, pct_w_total, weighted_score, eff_weight, T,
    sum_locked_pct, unlocked_weighted_sum, nrows, clamp0_10, inp_infeasible,
    Finset.sum_range_succ, List.range_succ, min_def, max_def]

/-- C5 counterexample: in the zero-score-lock scenario the value returned as
the grand total is 100, not the claimed 125 (125 is only the internal
back-solved total). -/
theorem zero_score_lock_total_cex :
    (compute_weighting_state inp_zero_lock).1 = 100 ∧
    (compute_weighting_state inp_zero_lock).1 ≠ 125 := by
  norm_num [compute_weighting_state, total_weighted, weighted_score,
    eff_weight, T, sum_locked_pct, unlocked_weighted_sum, nrows, clamp0_10,
    inp_zero_lock, Finset.sum_range_succ, min_def, max_def]

/-- C5 (amended): scores `[0, 50]`, row 0 locked at share 1/5, row 1 unlocked
with slider 2: the internal back-solved total is `100/0.8 = 125`, the locked
row's effective weight is forced to 0 (score 0 cannot realize the 0.2
target), the unlocked row's weighted score is 100, and the returned grand
total is the recomputed sum 100, with shares `[0, 1]`. -/
theorem zero_score_lock_state :
    T inp_zero_lock = some 125 ∧
    compute_weighting_state inp_zero_lock = (100, [0, 2], [0, 100], [0, 1]) := by
  norm_num [compute_weighting_state, total_weighted, eff_weights,
    weighted_scores, pct_w_totals, pct_w_total, weighted_score, eff_weight, T,
    sum_locked_pct, unlocked_weighted_sum, nrows, clamp0_10, inp_zero_lock,
    Finset.sum_range_succ, List.range_succ, min_def, max_def]

/-- C10: the outputs depend only on the scores, the lock flags, the slider
weights of unlocked rows and the locked targets of locked rows; the slider
entries of locked rows and the target entries of unlocked rows are dead
inputs. -/
theorem masked_inputs_noninterference (a b : Input)
    (hs : a.scores = b.scores) (hl : a.locked = b.locked)
    (hpct : ∀ i, i < nrows a → a.locked.getD i false = true →
      a.locked_pct.getD i 0 = b.locked_pct.getD i 0)
    (hsl : ∀ i, i < nrows a → a.locked.getD i false = false →
      a.slider_weights.getD i 0 = b.slider_weights.getD i 0) :
    compute_weighting_state a = compute_weighting_state b := by
  have hn : nrows a = nrows b := by rw [nrows, nrows, hs]
  have hLeq : sum_locked_pct a = sum_locked_pct b := by
    rw [sum_locked_pct, sum_locked_pct, ← hn]
    refine Finset.sum_congr rfl fun i hi => ?_
    rw [← hl]
    by_cases h : a.locked.getD i false = true
    · rw [if_pos h, if_pos h, hpct i (Finset.mem_range.mp hi) h]
    · rw [if_neg h, if_neg h]
  have hU : unlocked_weighted_sum a = unlocked_weighted_sum b := by
    rw [unlocked_weighted_sum, unlocked_weighted_sum, ← hn]
    refine Finset.sum_congr rfl fun i hi => ?_
    rw [← hl, ← hs]
    by_cases h : a.locked.getD i false = true
    · rw [if_pos h, if_pos h]
    · rw [if_neg h, if_neg h,
        hsl i (Finset.mem_range.mp hi) (by simpa using h)]
  have hT : T a = T b := by rw [T, T, hLeq, hU]
  have heff : ∀ i, i < nrows a → eff_weight a i = eff_weight b i := by
    intro i hi
    rw [eff_weight, eff_weight, ← hl, ← hs]
    by_cases h : a.locked.getD i false = true
    · rw [if_pos h, if_pos h, hT, hpct i hi h]
    · rw [if_neg h, if_neg h, hsl i hi (by simpa using h)]
  have hws : ∀ i, i < nrows a → weighted_score a i = weighted_score b i := by
    intro i hi
    rw [weighted_score, weighted_score, ← hs, heff i hi]
  have htotal : total_weighted a = total_weighted b := by
    rw [total_weighted, total_weighted, ← hn]
    exact Finset.sum_congr rfl fun i hi => hws i (Finset.mem_range.mp hi)
  have hpw : ∀ i, i < nrows a → pct_w_total a i = pct_w_total b i := by
    intro i hi
    rw [pct_w_total, pct_w_total, htotal, hws i hi]
  have heffl : eff_weights a = eff_weights b := by
    rw [eff_weights, eff_weights, ← hn]
    exact List.map_congr_left fun i hi => heff i (List.mem_range.mp hi)
  have hwsl : weighted_scores a = weighted_scores b := by
    rw [weighted_scores, weighted_scores, ← hn]
    exact List.map_congr_left fun i hi => hws i (List.mem_range.mp hi)
  have hpwl : pct_w_totals a = pct_w_totals b := by
    rw [pct_w_totals, pct_w_totals, ← hn]
    exact List.map_congr_left fun i hi => hpw i (List.mem_range.mp hi)
  rw [compute_weighting_state, compute_weighting_state, htotal, heffl, hwsl,
    hpwl]

/-- C10 witness: `inp_balance` and `inp_balance_masked` differ only in the
slider entry of the locked row 0 and the target entry of the unlocked row 1,
and produce identical outputs. -/
theorem masked_inputs_noninterference_witness :
    compute_weighting_state inp_balance =
      compute_weighting_state inp_balance_masked :=
  masked_inputs_noninterference inp_balance inp_balance_masked rfl rfl
    (by
      intro i hi h
      norm_num [nrows, inp_balance] at hi
      interval_cases i
      · rfl
      · simp [inp_balance] at h)
    (by
      intro i hi h
      norm_num [nrows, inp_balance] at hi
      interval_cases i
      · simp [inp_balance] at h
      · rfl)

end Engine
